import Mathlib

/-!
Verification development for `json_validate.py`: a shallow embedding of the
schema algebra (`json_validator_wrapper` with the `required` / `one_of` /
`atleast_one` subclasses, `optional`, `anytype`, Python type objects, compiled
regexes, and dict/list literals) together with the recursive validator
`do_validate`, plus theorems about the validator's behaviour.

Modelling conventions:
- Python `dict`s (both the client JSON objects and the schema field maps) are
  modelled as association lists in iteration order; lookup is first-match.
- Python floats are modelled as rationals; `int(value) == value` becomes
  `q.den = 1` (the value has zero fractional part).
- `list(set(a).union(b))` is modelled as order-preserving deduplication of
  `a ++ b`.
- A compiled regex is modelled as its pattern source together with an abstract
  match predicate on strings (`re.match` anchored semantics are irrelevant to
  the theorems; concrete regexes used in witnesses get concrete matchers).
- Exceptions become an `Except` result: `JSONException` values are the
  structured client-input errors; `TypeError`, `KeyError` and `AssertionError`
  are separate fault constructors, as they are separate exception classes.
-/

namespace JsonValidate

/-- The Python type objects that appear as schema leaves or type checks:
`int`, `float`, `str` (with `unicode` merged into `str`), `dict`, `list`. -/
inductive PyType where
  | int
  | float
  | str
  | dict
  | list
deriving DecidableEq, Repr

/-- A decoded JSON value.  Floats are modelled as rationals. -/
inductive JValue where
  | null
  | int (n : Int)
  | float (q : Rat)
  | str (s : String)
  | list (xs : List JValue)
  | dict (m : List (String × JValue))
deriving Repr

/-- `type(value).__name__` for a JSON value. -/
def typeName : JValue → String
  | .null => "NoneType"
  | .int _ => "int"
  | .float _ => "float"
  | .str _ => "str"
  | .list _ => "list"
  | .dict _ => "dict"

/-- `t.__name__` for a Python type object. -/
def PyType.name : PyType → String
  | .int => "int"
  | .float => "float"
  | .str => "str"
  | .dict => "dict"
  | .list => "list"

/-- Python `isinstance(value, t)` restricted to the modelled values/types. -/
def isinstance (v : JValue) (t : PyType) : Bool :=
  match t, v with
  | .int, .int _ => true
  | .float, .float _ => true
  | .str, .str _ => true
  | .dict, .dict _ => true
  | .list, .list _ => true
  | _, _ => false

/-- The structured content of each `JSONException` raised by the validator. -/
inductive VError where
  | typeMismatch (path : String) (value : JValue) (actualType expectedType : String)
  | missingKey (path : String) (key : String)
  | missingOneOf (path : String) (group : List String)
  | ambiguousOneOf (path : String) (group present : List String)
  | missingAtLeastOne (path : String) (group : List String)
  | formatMismatch (path : String) (value : JValue) (patternSource : String)
deriving Repr

/-- Every exception the validator can raise.  `jsonError` is `JSONException`
(a client-input fault); the other constructors are the distinct Python
exception classes `KeyError`, `TypeError` and `AssertionError`. -/
inductive Fault where
  | jsonError (e : VError)
  | keyError (k : String)
  | typeError (msg : String)
  | assertionError (msg : String)
deriving Repr

/-- `isinstance(value, float)`. -/
def isFloatV : JValue → Bool
  | .float _ => true
  | _ => false

/-- `isinstance(value, int)`. -/
def isIntV : JValue → Bool
  | .int _ => true
  | _ => false

/-- `isinstance(value, str) or isinstance(value, unicode)`. -/
def isStrV : JValue → Bool
  | .str _ => true
  | _ => false

/-- `value is None`. -/
def isNullV : JValue → Bool
  | .null => true
  | _ => false

/-- `isinstance(value, float) and int(value) == value`: a floating value with
zero fractional part. -/
def isIntegralFloat : JValue → Bool
  | .float q => q.den == 1
  | _ => false

/-- `assert_json_type(t, value, path)`: ok, or the `JSONException` it raises. -/
def assert_json_type (t : PyType) (v : JValue) (path : String) : Except Fault Unit :=
  -- Special case: 3.0 is acceptable as an int
  if t = .int ∧ isIntegralFloat v then .ok ()
  -- Special case: ints acceptable as floats
  else if t = .float ∧ isIntV v then .ok ()
  -- Special case: str and unicode interchangeable
  else if t = .str ∧ isStrV v then .ok ()
  -- Design decision: allow None for all scalar types
  else if isNullV v ∧ t ≠ .dict ∧ t ≠ .list then .ok ()
  else if ¬ isinstance v t then
    .error (.jsonError (.typeMismatch path v (typeName v) t.name))
  else .ok ()

/-- The class of a `json_validator_wrapper` instance: the base class itself or
one of its subclasses `required`, `one_of`, `atleast_one`. -/
inductive Policy where
  | base
  | required
  | one_of
  | atleast_one
deriving DecidableEq, Repr

mutual
/-- A schema node (`json_structure` argument): a Python type object, a compiled
regex, the `anytype` class, a list literal, a dict literal, a
`json_validator_wrapper` instance, an `optional` instance, or any other object
(which `do_validate` rejects as prohibited, identified by its `repr`). -/
inductive JSchema where
  | prim (t : PyType)
  | pattern (source : String) (accepts : String → Bool)
  | anytype
  | jlist (elems : List JSchema)
  | jdict (fields : List (String × JSchema))
  | wrap (w : Wrapper)
  | opt (inner : JSchema)
  | other (objRepr : String)

/-- A `json_validator_wrapper` instance: its class, its `json_structure` dict
(association list in iteration order) and its `addends` list. -/
inductive Wrapper where
  | mk (policy : Policy) (json_structure : List (String × JSchema)) (addends : List Wrapper)
end

/-- The class of a wrapper. -/
def Wrapper.policy : Wrapper → Policy
  | .mk p _ _ => p

/-- The `json_structure` field of a wrapper. -/
def Wrapper.json_structure : Wrapper → List (String × JSchema)
  | .mk _ fs _ => fs

/-- The `addends` field of a wrapper. -/
def Wrapper.addends : Wrapper → List Wrapper
  | .mk _ _ ads => ads

/-- The keys of a schema field map, in iteration order (`d.keys()`). -/
def fieldKeys (fs : List (String × JSchema)) : List String :=
  fs.map Prod.fst

/-- First-match lookup in a schema field map (`k in d` / `d[k]`). -/
def lookupField : List (String × JSchema) → String → Option JSchema
  | [], _ => none
  | (k, s) :: rest, key => if k = key then some s else lookupField rest key

/-- First-match lookup in a client JSON object (`k in client_json` is
`(lookupVal m k).isSome`, and `client_json[k]` is the looked-up value). -/
def lookupVal : List (String × JValue) → String → Option JValue
  | [], _ => none
  | (k, x) :: rest, key => if k = key then some x else lookupVal rest key

/-- Order-preserving deduplication, keeping the first occurrence of each key;
models `list(set(a).union(b))` applied to `a ++ b`. -/
def dedupKeys : List String → List String
  | [] => []
  | k :: ks => k :: (dedupKeys ks).filter (· ≠ k)

mutual
/-- `json_validator_wrapper.required_keys()`: the wrapper's own keys (none for
`one_of` / `atleast_one` instances) united with the required keys of every
addend. -/
def Wrapper.required_keys : Wrapper → List String
  | .mk p fs ads =>
    let my_keys := match p with
      | .one_of | .atleast_one => []
      | _ => fieldKeys fs
    dedupKeys (my_keys ++ requiredKeysOfAddends ads)

/-- `reduce(operator.add, [addend.required_keys() for addend in addends], [])`. -/
def requiredKeysOfAddends : List Wrapper → List String
  | [] => []
  | a :: rest => a.required_keys ++ requiredKeysOfAddends rest
end

mutual
/-- `json_validator_wrapper.one_of_keys()`: one group of keys per `one_of`
instance in the combine chain, the wrapper's own group first. -/
def Wrapper.one_of_keys : Wrapper → List (List String)
  | .mk p fs ads =>
    (if p = .one_of then [fieldKeys fs] else []) ++ oneOfKeysOfAddends ads

/-- The `one_of` groups contributed by a list of addends, in addend order. -/
def oneOfKeysOfAddends : List Wrapper → List (List String)
  | [] => []
  | a :: rest => a.one_of_keys ++ oneOfKeysOfAddends rest
end

mutual
/-- `json_validator_wrapper.atleast_one_keys()`: one group of keys per
`atleast_one` instance in the combine chain. -/
def Wrapper.atleast_one_keys : Wrapper → List (List String)
  | .mk p fs ads =>
    (if p = .atleast_one then [fieldKeys fs] else []) ++ atLeastOneKeysOfAddends ads

/-- The `atleast_one` groups contributed by a list of addends, in addend order. -/
def atLeastOneKeysOfAddends : List Wrapper → List (List String)
  | [] => []
  | a :: rest => a.atleast_one_keys ++ atLeastOneKeysOfAddends rest
end

mutual
/-- `json_validator_wrapper.__getitem__`: the wrapper's own `json_structure`
first, then each addend in order; `none` models the final `KeyError`. -/
def Wrapper.getitem : Wrapper → String → Option JSchema
  | .mk _ fs ads, k =>
    match lookupField fs k with
    | some s => some s
    | none => getitemAddends ads k

/-- Try `addend[k]` for each addend in order, swallowing `KeyError`. -/
def getitemAddends : List Wrapper → String → Option JSchema
  | [], _ => none
  | a :: rest, k =>
    match a.getitem k with
    | some s => some s
    | none => getitemAddends rest k
end

/-- The right operand of `json_validator_wrapper.__add__`: another wrapper, or
a plain Python dict. -/
inductive AddOperand where
  | wrapper (w : Wrapper)
  | dictLiteral (fs : List (String × JSchema))

/-- `json_validator_wrapper.__add__`: a copy of `self` (same class, same
`json_structure`) with `other` appended to `addends`; a plain dict operand is
first wrapped as a `required` instance. -/
def Wrapper.add (self : Wrapper) (o : AddOperand) : Wrapper :=
  match self, o with
  | .mk p fs ads, o =>
    -- Treat Python dicts as 'required' instances
    let other := match o with
      | .wrapper w => w
      | .dictLiteral d => .mk .required d []
    .mk p fs (ads ++ [other])

mutual
/-- Size of a schema node, used as the termination measure of the validator. -/
def szS : JSchema → Nat
  | .prim _ => 1
  | .pattern _ _ => 1
  | .anytype => 1
  | .jlist es => szL es + 1
  | .jdict fs => szF fs + 2
  | .wrap w => szW w + 1
  | .opt inner => szS inner + 1
  | .other _ => 1

/-- Size of a wrapper. -/
def szW : Wrapper → Nat
  | .mk _ fs ads => szF fs + szA ads + 1

/-- Size of a list of schema nodes. -/
def szL : List JSchema → Nat
  | [] => 0
  | s :: ss => szS s + szL ss + 1

/-- Size of a schema field map. -/
def szF : List (String × JSchema) → Nat
  | [] => 0
  | (_, s) :: fs => szS s + szF fs + 1

/-- Size of a list of addends. -/
def szA : List Wrapper → Nat
  | [] => 0
  | w :: ws => szW w + szA ws + 1
end

theorem lookupField_szS : ∀ {fs : List (String × JSchema)} {k : String} {s : JSchema},
    lookupField fs k = some s → szS s < szF fs := by
  intro fs
  induction fs with
  | nil => intro k s h; simp [lookupField] at h
  | cons kv rest ih =>
    intro k s h
    obtain ⟨k0, s0⟩ := kv
    simp only [lookupField] at h
    by_cases hk : k0 = k
    · simp only [hk, if_pos rfl] at h
      cases h
      simp [szF]
      omega
    · rw [if_neg hk] at h
      have := ih h
      simp [szF]
      omega

theorem getitem_szS_rec : ∀ n : Nat,
    (∀ w k s, szW w < n → Wrapper.getitem w k = some s → szS s < szW w) ∧
    (∀ ads k s, szA ads < n → getitemAddends ads k = some s → szS s < szA ads) := by
  intro n
  induction n with
  | zero =>
    exact ⟨fun w k s h => absurd h (Nat.not_lt_zero _),
           fun ads k s h => absurd h (Nat.not_lt_zero _)⟩
  | succ n ih =>
    constructor
    · intro w k s hsz hget
      obtain ⟨p, fs, ads⟩ := w
      simp only [Wrapper.getitem] at hget
      simp only [szW] at hsz ⊢
      cases hlf : lookupField fs k with
      | some s0 =>
        rw [hlf] at hget
        cases hget
        have := lookupField_szS hlf
        omega
      | none =>
        rw [hlf] at hget
        have h2 : szA ads < n := by omega
        have := ih.2 ads k s h2 hget
        omega
    · intro ads k s hsz hget
      cases ads with
      | nil => simp [getitemAddends] at hget
      | cons a rest =>
        simp only [getitemAddends] at hget
        simp only [szA] at hsz ⊢
        cases hg : a.getitem k with
        | some s0 =>
          rw [hg] at hget
          cases hget
          have hwa : szW a < n := by omega
          have := ih.1 a k s hwa hg
          omega
        | none =>
          rw [hg] at hget
          have h2 : szA rest < n := by omega
          have := ih.2 rest k s h2 hget
          omega

/-- `__getitem__` only returns schema nodes stored inside the wrapper, so the
result is strictly smaller than the wrapper. -/
theorem getitem_szS {w : Wrapper} {k : String} {s : JSchema}
    (h : w.getitem k = some s) : szS s < szW w :=
  (getitem_szS_rec (szW w + 1)).1 w k s (Nat.lt_succ_self _) h

/-- The single-quote character used by Python `repr` on a simple string. -/
def quoteChar : Char := Char.ofNat 39

/-- Python `repr(key)` for a simple string key. -/
def pyReprStr (s : String) : String :=
  String.singleton quoteChar ++ s ++ String.singleton quoteChar

/-- `path + '[%s]' % repr(key)`. -/
def childPathKey (path key : String) : String :=
  path ++ "[" ++ pyReprStr key ++ "]"

/-- `path + '[%s]' % i` for a list index. -/
def childPathIdx (path : String) (i : Nat) : String :=
  path ++ "[" ++ toString i ++ "]"

/-- Python truthiness of a JSON value (`if client_json:`). -/
def falsy : JValue → Bool
  | .null => true
  | .int n => n == 0
  | .float q => decide (q = 0)
  | .str s => s == ""
  | .list xs => xs.isEmpty
  | .dict m => m.isEmpty

/-- Exception propagation: an exception in the first step aborts, otherwise
the second step runs. -/
def seqE (a b : Except Fault Unit) : Except Fault Unit :=
  match a with
  | .error e => .error e
  | .ok _ => b

/-- `isinstance(json_structure, optional)`. -/
def isOptional : JSchema → Bool
  | .opt _ => true
  | _ => false

/-- The message of the `assert` on malformed list schemas. -/
def listAssertMsg : String :=
  "lists in json_validate structures must have exactly one element"

/-- The message of the `TypeError` raised by `re.match` on a non-string. -/
def bufferTypeErrorMsg : String := "expected string or buffer"

/-- The message of the `TypeError` raised on a prohibited schema object. -/
def prohibitedTypeMsg (objRepr : String) : String :=
  "json_structure argument " ++ objRepr ++ " is of prohibited type"

mutual
/-- `do_validate(json_structure, client_json, path)`: ok, or the first
exception raised. -/
def do_validate (s : JSchema) (client : JValue) (path : String) : Except Fault Unit :=
  match s with
  | .wrap w => validate_wrapper w client path
  | .jdict fs =>
    -- Treat regular Python dicts the same as 'required' instances
    validate_wrapper (.mk .required fs []) client path
  | .jlist es =>
    match client with
    | .list xs =>
      match es with
      | [e] => validate_items e xs path 0
      | _ => .error (.assertionError listAssertMsg)
    | _ => assert_json_type .list client path
  | .opt inner =>
    -- OK if client_json is falsy
    if falsy client then .ok () else do_validate inner client path
  | .anytype => .ok ()
  | .prim t => assert_json_type t client path
  | .pattern source accepts =>
    match client with
    | .str str =>
      if accepts str then .ok ()
      else .error (.jsonError (.formatMismatch path (.str str) source))
    | _ => .error (.typeError bufferTypeErrorMsg)
  | .other objRepr => .error (.typeError (prohibitedTypeMsg objRepr))
termination_by (szS s, 0, 0)
decreasing_by
  all_goals simp_wf
  all_goals
    first
    | (simp [szS, szW, szL, szF, szA]; omega)
    | (have hx := getitem_szS hg; omega)
    | (apply Prod.Lex.left; simp [szS, szW, szL, szF, szA]; omega)
    | (apply Prod.Lex.left; exact getitem_szS hg)
    | (apply Prod.Lex.left; have hx := getitem_szS hg; omega)
    | (apply Prod.Lex.right; apply Prod.Lex.left; omega)
    | (apply Prod.Lex.right; apply Prod.Lex.right; omega)
    | omega

/-- The wrapper branch of `do_validate`: type-check, then the required keys,
then the `one_of` groups, then the `atleast_one` groups. -/
def validate_wrapper (w : Wrapper) (client : JValue) (path : String) : Except Fault Unit :=
  match client with
  | .dict m =>
    seqE (validate_required w w.required_keys m path)
      (seqE (validate_one_of w w.one_of_keys m path)
        (validate_atleast w w.atleast_one_keys m path))
  | _ => assert_json_type .dict client path
termination_by (szW w, 1, 0)
decreasing_by
  all_goals simp_wf
  all_goals
    first
    | (simp [szS, szW, szL, szF, szA]; omega)
    | (have hx := getitem_szS hg; omega)
    | (apply Prod.Lex.left; simp [szS, szW, szL, szF, szA]; omega)
    | (apply Prod.Lex.left; exact getitem_szS hg)
    | (apply Prod.Lex.left; have hx := getitem_szS hg; omega)
    | (apply Prod.Lex.right; apply Prod.Lex.left; omega)
    | (apply Prod.Lex.right; apply Prod.Lex.right; omega)
    | omega

/-- The required-keys loop of `do_validate`. -/
def validate_required (w : Wrapper) (keys : List String)
    (m : List (String × JValue)) (path : String) : Except Fault Unit :=
  match keys with
  | [] => .ok ()
  | key :: rest =>
    let step : Except Fault Unit :=
      match hg : w.getitem key with
      | none => .error (.keyError key)
      | some next =>
        if isOptional next then
          -- optional keys are only validated when present
          match lookupVal m key with
          | some v => do_validate next v (childPathKey path key)
          | none => .ok ()
        else
          match lookupVal m key with
          | none => .error (.jsonError (.missingKey path key))
          | some v => do_validate next v (childPathKey path key)
    seqE step (validate_required w rest m path)
termination_by (szW w, 0, keys.length)
decreasing_by
  all_goals simp_wf
  all_goals
    first
    | (simp [szS, szW, szL, szF, szA]; omega)
    | (have hx := getitem_szS hg; omega)
    | (apply Prod.Lex.left; simp [szS, szW, szL, szF, szA]; omega)
    | (apply Prod.Lex.left; exact getitem_szS hg)
    | (apply Prod.Lex.left; have hx := getitem_szS hg; omega)
    | (apply Prod.Lex.right; apply Prod.Lex.left; omega)
    | (apply Prod.Lex.right; apply Prod.Lex.right; omega)
    | omega

/-- The `one_of` groups loop of `do_validate`. -/
def validate_one_of (w : Wrapper) (groups : List (List String))
    (m : List (String × JValue)) (path : String) : Except Fault Unit :=
  match groups with
  | [] => .ok ()
  | g :: rest =>
    let keys_in_client_json := g.filter (fun k => (lookupVal m k).isSome)
    let step : Except Fault Unit :=
      match keys_in_client_json with
      | [] => .error (.jsonError (.missingOneOf path g))
      | [key] =>
        match hg : w.getitem key with
        | none => .error (.keyError key)
        | some next =>
          match lookupVal m key with
          | none => .error (.keyError key)
          | some v => do_validate next v (childPathKey path key)
      | _ => .error (.jsonError (.ambiguousOneOf path g keys_in_client_json))
    seqE step (validate_one_of w rest m path)
termination_by (szW w, 0, groups.length)
decreasing_by
  all_goals simp_wf
  all_goals
    first
    | (simp [szS, szW, szL, szF, szA]; omega)
    | (have hx := getitem_szS hg; omega)
    | (apply Prod.Lex.left; simp [szS, szW, szL, szF, szA]; omega)
    | (apply Prod.Lex.left; exact getitem_szS hg)
    | (apply Prod.Lex.left; have hx := getitem_szS hg; omega)
    | (apply Prod.Lex.right; apply Prod.Lex.left; omega)
    | (apply Prod.Lex.right; apply Prod.Lex.right; omega)
    | omega

/-- The `atleast_one` groups loop of `do_validate`: only the first present
key of each group is validated. -/
def validate_atleast (w : Wrapper) (groups : List (List String))
    (m : List (String × JValue)) (path : String) : Except Fault Unit :=
  match groups with
  | [] => .ok ()
  | g :: rest =>
    let keys_in_client_json := g.filter (fun k => (lookupVal m k).isSome)
    let step : Except Fault Unit :=
      match keys_in_client_json with
      | [] => .error (.jsonError (.missingAtLeastOne path g))
      | key :: _ =>
        match hg : w.getitem key with
        | none => .error (.keyError key)
        | some next =>
          match lookupVal m key with
          | none => .error (.keyError key)
          | some v => do_validate next v (childPathKey path key)
    seqE step (validate_atleast w rest m path)
termination_by (szW w, 0, groups.length)
decreasing_by
  all_goals simp_wf
  all_goals
    first
    | (simp [szS, szW, szL, szF, szA]; omega)
    | (have hx := getitem_szS hg; omega)
    | (apply Prod.Lex.left; simp [szS, szW, szL, szF, szA]; omega)
    | (apply Prod.Lex.left; exact getitem_szS hg)
    | (apply Prod.Lex.left; have hx := getitem_szS hg; omega)
    | (apply Prod.Lex.right; apply Prod.Lex.left; omega)
    | (apply Prod.Lex.right; apply Prod.Lex.right; omega)
    | omega

/-- The list-elements loop of `do_validate` (`enumerate(client_json)`). -/
def validate_items (e : JSchema) (items : List JValue) (path : String)
    (i : Nat) : Except Fault Unit :=
  match items with
  | [] => .ok ()
  | x :: rest =>
    seqE (do_validate e x (childPathIdx path i)) (validate_items e rest path (i + 1))
termination_by (szS e, 1, items.length)
decreasing_by
  all_goals simp_wf
  all_goals
    first
    | (simp [szS, szW, szL, szF, szA]; omega)
    | (have hx := getitem_szS hg; omega)
    | (apply Prod.Lex.left; simp [szS, szW, szL, szF, szA]; omega)
    | (apply Prod.Lex.left; exact getitem_szS hg)
    | (apply Prod.Lex.left; have hx := getitem_szS hg; omega)
    | (apply Prod.Lex.right; apply Prod.Lex.left; omega)
    | (apply Prod.Lex.right; apply Prod.Lex.right; omega)
    | omega
end

mutual
/-- All keys mentioned by a wrapper schema: its own field keys together with
the field keys of every addend, recursively through the combine chain. -/
def Wrapper.mentionedKeys : Wrapper → List String
  | .mk _ fs ads => fieldKeys fs ++ mentionedKeysAddends ads

/-- The keys mentioned by a list of addends. -/
def mentionedKeysAddends : List Wrapper → List String
  | [] => []
  | a :: rest => a.mentionedKeys ++ mentionedKeysAddends rest
end

/-- The validation entry point as the decorators use it: run `do_validate`
from the root path and pass the client value through unchanged on success. -/
def json_validate_run (s : JSchema) (v : JValue) : Except Fault JValue :=
  match do_validate s v "client_json" with
  | .ok _ => .ok v
  | .error e => .error e

theorem seqE_okL (b : Except Fault Unit) : seqE (.ok ()) b = b := rfl

theorem seqE_errL (e : Fault) (b : Except Fault Unit) : seqE (.error e) b = .error e := rfl

theorem seqE_okR (a : Except Fault Unit) : seqE a (.ok ()) = a := by
  cases a with
  | ok u => cases u; rfl
  | error e => rfl

theorem do_validate_wrap (w : Wrapper) (v : JValue) (path : String) :
    do_validate (.wrap w) v path = validate_wrapper w v path := by
  simp [do_validate]

theorem do_validate_jdict (fs : List (String × JSchema)) (v : JValue) (path : String) :
    do_validate (.jdict fs) v path = validate_wrapper (.mk .required fs []) v path := by
  simp [do_validate]

theorem do_validate_prim (t : PyType) (v : JValue) (path : String) :
    do_validate (.prim t) v path = assert_json_type t v path := by
  simp [do_validate]

theorem do_validate_opt (inner : JSchema) (v : JValue) (path : String) :
    do_validate (.opt inner) v path =
      if falsy v then .ok () else do_validate inner v path := by
  rw [do_validate]

theorem validate_wrapper_dict (w : Wrapper) (m : List (String × JValue)) (path : String) :
    validate_wrapper w (.dict m) path =
      seqE (validate_required w w.required_keys m path)
        (seqE (validate_one_of w w.one_of_keys m path)
          (validate_atleast w w.atleast_one_keys m path)) := by
  rw [validate_wrapper]

theorem validate_wrapper_nondict (w : Wrapper) (v : JValue) (path : String)
    (h : isinstance v .dict = false) :
    validate_wrapper w v path = assert_json_type .dict v path := by
  cases v with
  | dict m => simp [isinstance] at h
  | null => simp [validate_wrapper]
  | int n => simp [validate_wrapper]
  | float q => simp [validate_wrapper]
  | str s => simp [validate_wrapper]
  | list xs => simp [validate_wrapper]

theorem validate_required_nil (w : Wrapper) (m : List (String × JValue)) (path : String) :
    validate_required w [] m path = .ok () := by
  rw [validate_required]

theorem validate_required_cons_keyError (w : Wrapper) (key : String) (rest : List String)
    (m : List (String × JValue)) (path : String) (hg : w.getitem key = none) :
    validate_required w (key :: rest) m path = .error (.keyError key) := by
  rw [validate_required]
  split <;> rename_i h <;> rw [hg] at h <;> first | rfl | cases h

theorem validate_required_cons_opt_present (w : Wrapper) (key : String) (rest : List String)
    (m : List (String × JValue)) (path : String) (next : JSchema) (v : JValue)
    (hg : w.getitem key = some next) (ho : isOptional next = true)
    (hl : lookupVal m key = some v) :
    validate_required w (key :: rest) m path =
      seqE (do_validate next v (childPathKey path key)) (validate_required w rest m path) := by
  rw [validate_required]
  split <;> rename_i h <;> rw [hg] at h
  · cases h
  · injection h with h2
    subst h2
    simp [ho, hl]

theorem validate_required_cons_opt_absent (w : Wrapper) (key : String) (rest : List String)
    (m : List (String × JValue)) (path : String) (next : JSchema)
    (hg : w.getitem key = some next) (ho : isOptional next = true)
    (hl : lookupVal m key = none) :
    validate_required w (key :: rest) m path = validate_required w rest m path := by
  rw [validate_required]
  split <;> rename_i h <;> rw [hg] at h
  · cases h
  · injection h with h2
    subst h2
    simp [ho, hl, seqE]

theorem validate_required_cons_missing (w : Wrapper) (key : String) (rest : List String)
    (m : List (String × JValue)) (path : String) (next : JSchema)
    (hg : w.getitem key = some next) (ho : isOptional next = false)
    (hl : lookupVal m key = none) :
    validate_required w (key :: rest) m path = .error (.jsonError (.missingKey path key)) := by
  rw [validate_required]
  split <;> rename_i h <;> rw [hg] at h
  · cases h
  · injection h with h2
    subst h2
    simp [ho, hl, seqE]

theorem validate_required_cons_present (w : Wrapper) (key : String) (rest : List String)
    (m : List (String × JValue)) (path : String) (next : JSchema) (v : JValue)
    (hg : w.getitem key = some next) (ho : isOptional next = false)
    (hl : lookupVal m key = some v) :
    validate_required w (key :: rest) m path =
      seqE (do_validate next v (childPathKey path key)) (validate_required w rest m path) := by
  rw [validate_required]
  split <;> rename_i h <;> rw [hg] at h
  · cases h
  · injection h with h2
    subst h2
    simp [ho, hl]

theorem validate_one_of_nil (w : Wrapper) (m : List (String × JValue)) (path : String) :
    validate_one_of w [] m path = .ok () := by
  rw [validate_one_of]

theorem validate_one_of_cons_missing (w : Wrapper) (g : List String)
    (rest : List (List String)) (m : List (String × JValue)) (path : String)
    (hp : g.filter (fun k => (lookupVal m k).isSome) = []) :
    validate_one_of w (g :: rest) m path = .error (.jsonError (.missingOneOf path g)) := by
  rw [validate_one_of]
  simp only [hp]
  rfl

theorem validate_one_of_cons_single (w : Wrapper) (g : List String)
    (rest : List (List String)) (m : List (String × JValue)) (path : String)
    (key : String) (next : JSchema) (v : JValue)
    (hp : g.filter (fun k => (lookupVal m k).isSome) = [key])
    (hg : w.getitem key = some next) (hl : lookupVal m key = some v) :
    validate_one_of w (g :: rest) m path =
      seqE (do_validate next v (childPathKey path key)) (validate_one_of w rest m path) := by
  rw [validate_one_of]
  simp only [hp]
  split <;> rename_i h <;> rw [hg] at h
  · cases h
  · injection h with h2
    subst h2
    simp [hl]

theorem validate_one_of_cons_ambiguous (w : Wrapper) (g : List String)
    (rest : List (List String)) (m : List (String × JValue)) (path : String)
    (k1 k2 : String) (more : List String)
    (hp : g.filter (fun k => (lookupVal m k).isSome) = k1 :: k2 :: more) :
    validate_one_of w (g :: rest) m path =
      .error (.jsonError (.ambiguousOneOf path g (k1 :: k2 :: more))) := by
  rw [validate_one_of]
  simp only [hp]
  rfl

theorem validate_atleast_nil (w : Wrapper) (m : List (String × JValue)) (path : String) :
    validate_atleast w [] m path = .ok () := by
  rw [validate_atleast]

theorem validate_atleast_cons_missing (w : Wrapper) (g : List String)
    (rest : List (List String)) (m : List (String × JValue)) (path : String)
    (hp : g.filter (fun k => (lookupVal m k).isSome) = []) :
    validate_atleast w (g :: rest) m path =
      .error (.jsonError (.missingAtLeastOne path g)) := by
  rw [validate_atleast]
  simp only [hp]
  rfl

theorem validate_atleast_cons_first (w : Wrapper) (g : List String)
    (rest : List (List String)) (m : List (String × JValue)) (path : String)
    (key : String) (more : List String) (next : JSchema) (v : JValue)
    (hp : g.filter (fun k => (lookupVal m k).isSome) = key :: more)
    (hg : w.getitem key = some next) (hl : lookupVal m key = some v) :
    validate_atleast w (g :: rest) m path =
      seqE (do_validate next v (childPathKey path key)) (validate_atleast w rest m path) := by
  rw [validate_atleast]
  simp only [hp]
  split <;> rename_i h <;> rw [hg] at h
  · cases h
  · injection h with h2
    subst h2
    simp [hl]

theorem validate_items_nil (e : JSchema) (path : String) (i : Nat) :
    validate_items e [] path i = .ok () := by
  rw [validate_items]

theorem validate_items_cons (e : JSchema) (x : JValue) (rest : List JValue)
    (path : String) (i : Nat) :
    validate_items e (x :: rest) path i =
      seqE (do_validate e x (childPathIdx path i)) (validate_items e rest path (i + 1)) := by
  rw [validate_items]

/-- C4: Null is accepted by every primitive schema kind (`int`, `float`,
`str`), but a null value presented to a wrapper schema, a bare field-map
literal, or a list schema fails with a type-mismatch `JSONException`. -/
theorem C4_null_primitives_vs_containers (path : String) (w : Wrapper)
    (fs : List (String × JSchema)) (es : List JSchema) :
    do_validate (.prim .int) .null path = .ok () ∧
    do_validate (.prim .float) .null path = .ok () ∧
    do_validate (.prim .str) .null path = .ok () ∧
    do_validate (.wrap w) .null path =
      .error (.jsonError (.typeMismatch path .null "NoneType" "dict")) ∧
    do_validate (.jdict fs) .null path =
      .error (.jsonError (.typeMismatch path .null "NoneType" "dict")) ∧
    do_validate (.jlist es) .null path =
      .error (.jsonError (.typeMismatch path .null "NoneType" "list")) := by
  refine ⟨?_, ?_, ?_, ?_, ?_, ?_⟩ <;>
    simp [do_validate, validate_wrapper, assert_json_type, isIntegralFloat, isIntV,
      isStrV, isNullV, isinstance, typeName, PyType.name]

/-- C5: the `int` schema accepts any integral numeric value, including a float
with zero fractional part, and rejects a float with nonzero fractional part
with a type mismatch; the `float` schema accepts every numeric value. -/
theorem C5_numeric_coercion (path : String) (q : Rat) (n : Int) :
    (do_validate (.prim .int) (.float q) path =
      if q.den = 1 then .ok ()
      else .error (.jsonError (.typeMismatch path (.float q) "float" "int"))) ∧
    do_validate (.prim .int) (.int n) path = .ok () ∧
    do_validate (.prim .float) (.int n) path = .ok () ∧
    do_validate (.prim .float) (.float q) path = .ok () := by
  refine ⟨?_, ?_, ?_, ?_⟩
  · rw [do_validate_prim]
    by_cases hq : q.den = 1 <;>
      simp [assert_json_type, isIntegralFloat, hq, isIntV, isStrV, isNullV,
        isinstance, typeName, PyType.name]
  all_goals
    simp [do_validate, assert_json_type, isIntegralFloat, isIntV, isStrV,
      isNullV, isinstance]

/-- C3: validating `optional(inner)` against a falsy value (null, zero, empty
text/sequence/mapping) succeeds without examining `inner`; against a truthy
value it recurses into `inner` with the same path; and an absent optional key
in a mapping is skipped. -/
theorem C3_optional_falsy (inner : JSchema) (v : JValue) (path : String)
    (w : Wrapper) (key : String) (rest : List String) (m : List (String × JValue)) :
    (falsy v = true → do_validate (.opt inner) v path = .ok ()) ∧
    (falsy v = false → do_validate (.opt inner) v path = do_validate inner v path) ∧
    (w.getitem key = some (.opt inner) → lookupVal m key = none →
      validate_required w (key :: rest) m path = validate_required w rest m path) := by
  refine ⟨?_, ?_, ?_⟩
  · intro h
    rw [do_validate_opt, h]
    rfl
  · intro h
    rw [do_validate_opt, h]
    rfl
  · intro hg hl
    exact validate_required_cons_opt_absent w key rest m path (.opt inner) hg rfl hl

/-- Witness for C3: `optional(int)` accepts `0` and `null` without looking at
the inner schema, and recurses into the inner schema on the truthy `1`. -/
theorem C3_optional_falsy_witness :
    falsy (.int 0) = true ∧
    do_validate (.opt (.prim .int)) (.int 0) "client_json" = .ok () ∧
    falsy .null = true ∧
    do_validate (.opt (.prim .int)) .null "client_json" = .ok () ∧
    falsy (.int 1) = false ∧
    do_validate (.opt (.prim .int)) (.int 1) "client_json" =
      do_validate (.prim .int) (.int 1) "client_json" :=
  ⟨rfl,
   (C3_optional_falsy (.prim .int) (.int 0) "client_json" (.mk .base [] []) "k" [] []).1 rfl,
   rfl,
   (C3_optional_falsy (.prim .int) .null "client_json" (.mk .base [] []) "k" [] []).1 rfl,
   rfl,
   (C3_optional_falsy (.prim .int) (.int 1) "client_json" (.mk .base [] []) "k" [] []).2.1 rfl⟩

/-- The matcher of the doctest regex `^fo*$`: an `f` followed by only `o`s. -/
def foMatcher (s : String) : Bool :=
  match s.data with
  | c :: rest => c == 'f' && rest.all (fun d => d == 'o')
  | [] => false

/-- C6 counterexample: a non-textual value given to a pattern schema does NOT
produce a `FormatMismatch` validation error; `re.match` raises a `TypeError`
(a different exception class), exactly as on the concrete input `5`. -/
theorem C6_counterexample :
    do_validate (.pattern "^fo*$" foMatcher) (.int 5) "client_json" =
      .error (.typeError "expected string or buffer") ∧
    (Except.error (Fault.typeError "expected string or buffer") ≠
      (.error (.jsonError (.formatMismatch "client_json" (.int 5) "^fo*$")) :
        Except Fault Unit)) := by
  constructor
  · simp [do_validate, bufferTypeErrorMsg]
  · simp

/-- C6 (amended): a pattern schema requires a textual value matching the
regex; a textual non-matching value yields `FormatMismatch` carrying the path,
the value and the regex source, while a non-textual value raises a `TypeError`
(as Python `re.match` does), not a `FormatMismatch` validation error. -/
theorem C6_pattern_amended (source : String) (accepts : String → Bool) (s : String)
    (v : JValue) (path : String) :
    (do_validate (.pattern source accepts) (.str s) path =
      if accepts s then .ok ()
      else .error (.jsonError (.formatMismatch path (.str s) source))) ∧
    (isStrV v = false →
      do_validate (.pattern source accepts) v path =
        .error (.typeError "expected string or buffer")) := by
  constructor
  · simp [do_validate]
  · intro h
    cases v <;> first
      | (simp [do_validate, bufferTypeErrorMsg]; done)
      | (simp [isStrV] at h)

/-- Witness for the amended C6: `^fo*$` accepts `"fooo"`, rejects `"bar"` with
`FormatMismatch`, and raises `TypeError` on the non-string `5`. -/
theorem C6_pattern_amended_witness :
    isStrV (.int 5) = false ∧
    do_validate (.pattern "^fo*$" foMatcher) (.str "fooo") "client_json" = .ok () ∧
    do_validate (.pattern "^fo*$" foMatcher) (.str "bar") "client_json" =
      .error (.jsonError (.formatMismatch "client_json" (.str "bar") "^fo*$")) ∧
    do_validate (.pattern "^fo*$" foMatcher) (.int 5) "client_json" =
      .error (.typeError "expected string or buffer") := by
  refine ⟨rfl, ?_, ?_, ?_⟩
  · rw [(C6_pattern_amended "^fo*$" foMatcher "fooo" (.int 5) "client_json").1]
    rfl
  · rw [(C6_pattern_amended "^fo*$" foMatcher "bar" (.int 5) "client_json").1]
    rfl
  · exact (C6_pattern_amended "^fo*$" foMatcher "bar" (.int 5) "client_json").2 rfl

/-- C9: a list schema declared without exactly one element schema makes the
validator fail (on a sequence value) with the `AssertionError` of the arity
assert, and a schema object outside the recognized closed set fails with a
`TypeError`; both are exception classes distinct from the `JSONException`
that carries every client-input error kind. -/
theorem C9_schema_definition_faults (es : List JSchema) (xs : List JValue)
    (r : String) (v : JValue) (path : String) (h : es.length ≠ 1) :
    do_validate (.jlist es) (.list xs) path = .error (.assertionError listAssertMsg) ∧
    do_validate (.other r) v path = .error (.typeError (prohibitedTypeMsg r)) ∧
    (∀ e : VError, Fault.assertionError listAssertMsg ≠ .jsonError e) ∧
    (∀ e : VError, Fault.typeError (prohibitedTypeMsg r) ≠ .jsonError e) := by
  refine ⟨?_, ?_, ?_, ?_⟩
  · cases es with
    | nil => simp [do_validate]
    | cons e es2 =>
      cases es2 with
      | nil => simp at h
      | cons e2 es3 => simp [do_validate]
  · simp [do_validate]
  · intro e
    simp
  · intro e
    simp

/-- Witness for C9: the empty list schema is malformed (`AssertionError`), and
the integer object `5` as a schema raises `TypeError`. -/
theorem C9_schema_definition_faults_witness :
    (([] : List JSchema).length ≠ 1) ∧
    do_validate (.jlist []) (.list [.int 1]) "client_json" =
      .error (.assertionError listAssertMsg) ∧
    do_validate (.other "5") (.int 3) "client_json" =
      .error (.typeError (prohibitedTypeMsg "5")) :=
  ⟨by decide,
   (C9_schema_definition_faults [] [.int 1] "5" (.int 3) "client_json" (by decide)).1,
   (C9_schema_definition_faults [] [.int 1] "5" (.int 3) "client_json" (by decide)).2.1⟩

theorem getitemAddends_append (ads : List Wrapper) (b : Wrapper) (k : String) :
    getitemAddends (ads ++ [b]) k =
      (getitemAddends ads k).orElse (fun _ => b.getitem k) := by
  induction ads with
  | nil =>
    cases hb : b.getitem k <;> simp [getitemAddends, hb, Option.orElse]
  | cons a rest ih =>
    cases ha : a.getitem k <;> simp [getitemAddends, ha, Option.orElse, ih]

/-- C8: `__add__` returns a new wrapper of the same class and fields with the
operand appended to `addends` (a plain dict operand first becomes a
`required` instance); on the combined wrapper, `__getitem__` prefers the left
operand and falls back to the appended operand — first match wins, and a key
among `a`'s own fields resolves to `a`'s own field schema. -/
theorem C8_combine (a b : Wrapper) (d : List (String × JSchema)) (k : String) (s : JSchema) :
    Wrapper.add a (.wrapper b) = .mk a.policy a.json_structure (a.addends ++ [b]) ∧
    Wrapper.add a (.dictLiteral d) =
      .mk a.policy a.json_structure (a.addends ++ [.mk .required d []]) ∧
    (Wrapper.add a (.wrapper b)).getitem k =
      (a.getitem k).orElse (fun _ => b.getitem k) ∧
    (lookupField a.json_structure k = some s →
      (Wrapper.add a (.wrapper b)).getitem k = some s) := by
  obtain ⟨p, fs, ads⟩ := a
  refine ⟨rfl, rfl, ?_, ?_⟩
  · show Wrapper.getitem (.mk p fs (ads ++ [b])) k = _
    cases hf : lookupField fs k with
    | some s0 => simp [Wrapper.getitem, hf, Option.orElse]
    | none => simp [Wrapper.getitem, hf, Option.orElse, getitemAddends_append]
  · intro hf
    simp only [Wrapper.json_structure] at hf
    show Wrapper.getitem (.mk p fs (ads ++ [b])) k = some s
    simp [Wrapper.getitem, hf]

/-- Witness for C8: combining `one_of({a: int})` with `required({a: str, c:
str})` keeps the left operand's own schema for the shared key `a`. -/
theorem C8_combine_witness :
    lookupField [("a", JSchema.prim .int)] "a" = some (.prim .int) ∧
    (Wrapper.add (.mk .one_of [("a", .prim .int)] [])
        (.wrapper (.mk .required [("a", .prim .str), ("c", .prim .str)] []))).getitem "a" =
      some (.prim .int) :=
  ⟨rfl,
   (C8_combine (.mk .one_of [("a", .prim .int)] [])
     (.mk .required [("a", .prim .str), ("c", .prim .str)] []) [] "a" (.prim .int)).2.2.2 rfl⟩

theorem validate_wrapper_pure_one_of (fields : List (String × JSchema))
    (m : List (String × JValue)) (path : String) :
    do_validate (.wrap (.mk .one_of fields [])) (.dict m) path =
      validate_one_of (.mk .one_of fields []) [fieldKeys fields] m path := by
  rw [do_validate_wrap, validate_wrapper_dict]
  have h1 : (Wrapper.mk .one_of fields []).required_keys = [] := by
    simp [Wrapper.required_keys, requiredKeysOfAddends, dedupKeys]
  have h2 : (Wrapper.mk .one_of fields []).one_of_keys = [fieldKeys fields] := by
    simp [Wrapper.one_of_keys, oneOfKeysOfAddends]
  have h3 : (Wrapper.mk .one_of fields []).atleast_one_keys = [] := by
    simp [Wrapper.atleast_one_keys, atLeastOneKeysOfAddends]
  rw [h1, h2, h3, validate_required_nil, seqE_okL, validate_atleast_nil, seqE_okR]

theorem validate_wrapper_pure_atleast (fields : List (String × JSchema))
    (m : List (String × JValue)) (path : String) :
    do_validate (.wrap (.mk .atleast_one fields [])) (.dict m) path =
      validate_atleast (.mk .atleast_one fields []) [fieldKeys fields] m path := by
  rw [do_validate_wrap, validate_wrapper_dict]
  have h1 : (Wrapper.mk .atleast_one fields []).required_keys = [] := by
    simp [Wrapper.required_keys, requiredKeysOfAddends, dedupKeys]
  have h2 : (Wrapper.mk .atleast_one fields []).one_of_keys = [] := by
    simp [Wrapper.one_of_keys, oneOfKeysOfAddends]
  have h3 : (Wrapper.mk .atleast_one fields []).atleast_one_keys = [fieldKeys fields] := by
    simp [Wrapper.atleast_one_keys, atLeastOneKeysOfAddends]
  rw [h1, h2, h3, validate_required_nil, seqE_okL, validate_one_of_nil, seqE_okL]

/-- C1: for a one-of group, zero present keys fail with the missing-one-of
error; two or more present keys fail with the ambiguous error regardless of
the present values; exactly one present key makes the validator recurse into
that key's looked-up schema node and value. -/
theorem C1_one_of_groups (w : Wrapper) (g : List String) (rest : List (List String))
    (fields : List (String × JSchema)) (m : List (String × JValue)) (path key : String)
    (k1 k2 : String) (more : List String) (s : JSchema) (v : JValue) :
    (g.filter (fun k => (lookupVal m k).isSome) = [] →
      validate_one_of w (g :: rest) m path =
        .error (.jsonError (.missingOneOf path g))) ∧
    (g.filter (fun k => (lookupVal m k).isSome) = k1 :: k2 :: more →
      validate_one_of w (g :: rest) m path =
        .error (.jsonError (.ambiguousOneOf path g (k1 :: k2 :: more)))) ∧
    ((fieldKeys fields).filter (fun k => (lookupVal m k).isSome) = [] →
      do_validate (.wrap (.mk .one_of fields [])) (.dict m) path =
        .error (.jsonError (.missingOneOf path (fieldKeys fields)))) ∧
    ((fieldKeys fields).filter (fun k => (lookupVal m k).isSome) = k1 :: k2 :: more →
      do_validate (.wrap (.mk .one_of fields [])) (.dict m) path =
        .error (.jsonError (.ambiguousOneOf path (fieldKeys fields) (k1 :: k2 :: more)))) ∧
    ((fieldKeys fields).filter (fun k => (lookupVal m k).isSome) = [key] →
      lookupField fields key = some s → lookupVal m key = some v →
      do_validate (.wrap (.mk .one_of fields [])) (.dict m) path =
        do_validate s v (childPathKey path key)) := by
  refine ⟨?_, ?_, ?_, ?_, ?_⟩
  · exact validate_one_of_cons_missing w g rest m path
  · exact validate_one_of_cons_ambiguous w g rest m path k1 k2 more
  · intro hp
    rw [validate_wrapper_pure_one_of, validate_one_of_cons_missing _ _ _ _ _ hp]
  · intro hp
    rw [validate_wrapper_pure_one_of, validate_one_of_cons_ambiguous _ _ _ _ _ _ _ _ hp]
  · intro hp hf hl
    have hg : (Wrapper.mk .one_of fields []).getitem key = some s := by
      simp [Wrapper.getitem, hf]
    rw [validate_wrapper_pure_one_of,
        validate_one_of_cons_single _ _ _ _ _ key s v hp hg hl,
        validate_one_of_nil, seqE_okR]

/-- Witness for C1: `one_of({a: int, b: [str]})` rejects `{}` with the
missing-one-of error, accepts `{a: 1}`, and rejects `{a: 1, b: ["x"]}` as
ambiguous even though both branches are individually valid. -/
theorem C1_one_of_groups_witness :
    ((fieldKeys [("a", JSchema.prim .int), ("b", .jlist [.prim .str])]).filter
      (fun k => (lookupVal [] k).isSome) = []) ∧
    do_validate (.wrap (.mk .one_of [("a", .prim .int), ("b", .jlist [.prim .str])] []))
      (.dict []) "client_json" =
      .error (.jsonError (.missingOneOf "client_json" ["a", "b"])) ∧
    do_validate (.wrap (.mk .one_of [("a", .prim .int), ("b", .jlist [.prim .str])] []))
      (.dict [("a", .int 1)]) "client_json" = .ok () ∧
    do_validate (.wrap (.mk .one_of [("a", .prim .int), ("b", .jlist [.prim .str])] []))
      (.dict [("a", .int 1), ("b", .list [.str "x"])]) "client_json" =
      .error (.jsonError (.ambiguousOneOf "client_json" ["a", "b"] ["a", "b"])) := by
  refine ⟨rfl, ?_, ?_, ?_⟩
  · exact (C1_one_of_groups (.mk .one_of [] []) [] [] [("a", .prim .int), ("b", .jlist [.prim .str])]
      [] "client_json" "a" "a" "b" [] (.prim .int) (.int 1)).2.2.1 rfl
  · rw [(C1_one_of_groups (.mk .one_of [] []) [] [] [("a", .prim .int), ("b", .jlist [.prim .str])]
      [("a", .int 1)] "client_json" "a" "a" "b" [] (.prim .int) (.int 1)).2.2.2.2 rfl rfl rfl]
    simp [do_validate, assert_json_type, isIntegralFloat, isIntV, isStrV, isNullV, isinstance]
  · exact (C1_one_of_groups (.mk .one_of [] []) [] [] [("a", .prim .int), ("b", .jlist [.prim .str])]
      [("a", .int 1), ("b", .list [.str "x"])] "client_json" "a" "a" "b" [] (.prim .int)
      (.int 1)).2.2.2.1 rfl

/-- C2: for an at-least-one group, zero present keys fail with the
missing-at-least-one error; otherwise the validator recurses only into the
first present key of the group in declared order, leaving the other present
keys unvalidated — so `atleast_one({a: int, b: int})` accepts
`{a: 1, b: "bad"}`. -/
theorem C2_atleast_one_groups (w : Wrapper) (g : List String) (rest : List (List String))
    (fields : List (String × JSchema)) (m : List (String × JValue)) (path key : String)
    (more : List String) (s : JSchema) (v : JValue) :
    (g.filter (fun k => (lookupVal m k).isSome) = [] →
      validate_atleast w (g :: rest) m path =
        .error (.jsonError (.missingAtLeastOne path g))) ∧
    ((fieldKeys fields).filter (fun k => (lookupVal m k).isSome) = [] →
      do_validate (.wrap (.mk .atleast_one fields [])) (.dict m) path =
        .error (.jsonError (.missingAtLeastOne path (fieldKeys fields)))) ∧
    ((fieldKeys fields).filter (fun k => (lookupVal m k).isSome) = key :: more →
      lookupField fields key = some s → lookupVal m key = some v →
      do_validate (.wrap (.mk .atleast_one fields [])) (.dict m) path =
        do_validate s v (childPathKey path key)) ∧
    do_validate (.wrap (.mk .atleast_one [("a", .prim .int), ("b", .prim .int)] []))
      (.dict [("a", .int 1), ("b", .str "bad")]) "client_json" = .ok () := by
  refine ⟨?_, ?_, ?_, ?_⟩
  · exact validate_atleast_cons_missing w g rest m path
  · intro hp
    rw [validate_wrapper_pure_atleast, validate_atleast_cons_missing _ _ _ _ _ hp]
  · intro hp hf hl
    have hg : (Wrapper.mk .atleast_one fields []).getitem key = some s := by
      simp [Wrapper.getitem, hf]
    rw [validate_wrapper_pure_atleast,
        validate_atleast_cons_first _ _ _ _ _ key more s v hp hg hl,
        validate_atleast_nil, seqE_okR]
  · rw [validate_wrapper_pure_atleast,
        validate_atleast_cons_first (.mk .atleast_one [("a", .prim .int), ("b", .prim .int)] [])
          (fieldKeys [("a", .prim .int), ("b", .prim .int)]) []
          [("a", .int 1), ("b", .str "bad")] "client_json" "a" ["b"] (.prim .int) (.int 1)
          (by rfl) (by rfl) (by rfl),
        validate_atleast_nil, seqE_okR]
    simp [do_validate, assert_json_type, isIntegralFloat, isIntV, isStrV, isNullV, isinstance]

/-- Witness for C2: `atleast_one({a: int, b: int})` rejects `{}` with the
missing-at-least-one error and accepts `{a: 1}` by validating only `a`. -/
theorem C2_atleast_one_groups_witness :
    ((fieldKeys [("a", JSchema.prim .int), ("b", .prim .int)]).filter
      (fun k => (lookupVal [] k).isSome) = []) ∧
    do_validate (.wrap (.mk .atleast_one [("a", .prim .int), ("b", .prim .int)] []))
      (.dict []) "client_json" =
      .error (.jsonError (.missingAtLeastOne "client_json" ["a", "b"])) ∧
    do_validate (.wrap (.mk .atleast_one [("a", .prim .int), ("b", .prim .int)] []))
      (.dict [("a", .int 1), ("b", .str "bad")]) "client_json" = .ok () := by
  refine ⟨rfl, ?_, ?_⟩
  · exact (C2_atleast_one_groups (.mk .atleast_one [] []) [] []
      [("a", .prim .int), ("b", .prim .int)] [] "client_json" "a" [] (.prim .int)
      (.int 1)).2.1 rfl
  · exact (C2_atleast_one_groups (.mk .atleast_one [] []) [] []
      [("a", .prim .int), ("b", .prim .int)] [] "client_json" "a" [] (.prim .int)
      (.int 1)).2.2.2

theorem validate_one_of_cons_single_keyError (w : Wrapper) (g : List String)
    (rest : List (List String)) (m : List (String × JValue)) (path : String)
    (key : String)
    (hp : g.filter (fun k => (lookupVal m k).isSome) = [key])
    (hg : w.getitem key = none) :
    validate_one_of w (g :: rest) m path = .error (.keyError key) := by
  rw [validate_one_of]
  simp only [hp]
  split <;> rename_i h <;> rw [hg] at h <;> first | rfl | cases h

theorem validate_atleast_cons_first_keyError (w : Wrapper) (g : List String)
    (rest : List (List String)) (m : List (String × JValue)) (path : String)
    (key : String) (more : List String)
    (hp : g.filter (fun k => (lookupVal m k).isSome) = key :: more)
    (hg : w.getitem key = none) :
    validate_atleast w (g :: rest) m path = .error (.keyError key) := by
  rw [validate_atleast]
  simp only [hp]
  split <;> rename_i h <;> rw [hg] at h <;> first | rfl | cases h

theorem validate_required_congr (w : Wrapper) (keys : List String)
    (m1 m2 : List (String × JValue)) (path : String)
    (h : ∀ j ∈ keys, lookupVal m1 j = lookupVal m2 j) :
    validate_required w keys m1 path = validate_required w keys m2 path := by
  induction keys with
  | nil => rw [validate_required_nil, validate_required_nil]
  | cons key rest ih =>
    have hkey : lookupVal m1 key = lookupVal m2 key := h key (List.mem_cons_self _ _)
    have hrest : ∀ j ∈ rest, lookupVal m1 j = lookupVal m2 j :=
      fun j hj => h j (List.mem_cons_of_mem _ hj)
    cases hg : w.getitem key with
    | none =>
      rw [validate_required_cons_keyError _ _ _ _ _ hg,
          validate_required_cons_keyError _ _ _ _ _ hg]
    | some next =>
      cases ho : isOptional next with
      | true =>
        cases hl : lookupVal m2 key with
        | none =>
          rw [validate_required_cons_opt_absent _ _ _ _ _ _ hg ho (hkey.trans hl),
              validate_required_cons_opt_absent _ _ _ _ _ _ hg ho hl]
          exact ih hrest
        | some v =>
          rw [validate_required_cons_opt_present _ _ _ _ _ _ _ hg ho (hkey.trans hl),
              validate_required_cons_opt_present _ _ _ _ _ _ _ hg ho hl,
              ih hrest]
      | false =>
        cases hl : lookupVal m2 key with
        | none =>
          rw [validate_required_cons_missing _ _ _ _ _ _ hg ho (hkey.trans hl),
              validate_required_cons_missing _ _ _ _ _ _ hg ho hl]
        | some v =>
          rw [validate_required_cons_present _ _ _ _ _ _ _ hg ho (hkey.trans hl),
              validate_required_cons_present _ _ _ _ _ _ _ hg ho hl,
              ih hrest]

theorem validate_one_of_congr (w : Wrapper) (groups : List (List String))
    (m1 m2 : List (String × JValue)) (path : String)
    (h : ∀ g ∈ groups, ∀ j ∈ g, lookupVal m1 j = lookupVal m2 j) :
    validate_one_of w groups m1 path = validate_one_of w groups m2 path := by
  induction groups with
  | nil => rw [validate_one_of_nil, validate_one_of_nil]
  | cons g rest ih =>
    have hgk : ∀ j ∈ g, lookupVal m1 j = lookupVal m2 j := h g (List.mem_cons_self _ _)
    have hrest : ∀ g2 ∈ rest, ∀ j ∈ g2, lookupVal m1 j = lookupVal m2 j :=
      fun g2 hg2 => h g2 (List.mem_cons_of_mem _ hg2)
    have hfil : g.filter (fun k => (lookupVal m1 k).isSome) =
        g.filter (fun k => (lookupVal m2 k).isSome) := by
      apply List.filter_congr
      intro a ha
      rw [hgk a ha]
    cases hp : g.filter (fun k => (lookupVal m2 k).isSome) with
    | nil =>
      rw [validate_one_of_cons_missing _ _ _ _ _ (hfil.trans hp),
          validate_one_of_cons_missing _ _ _ _ _ hp]
    | cons key more =>
      cases more with
      | nil =>
        have hmem : key ∈ g.filter (fun k => (lookupVal m2 k).isSome) := by
          rw [hp]
          exact List.mem_cons_self _ _
        rw [List.mem_filter] at hmem
        obtain ⟨v, hv⟩ := Option.isSome_iff_exists.mp (by simpa using hmem.2)
        have hv1 : lookupVal m1 key = some v := (hgk key hmem.1).trans hv
        cases hgi : w.getitem key with
        | none =>
          rw [validate_one_of_cons_single_keyError _ _ _ _ _ _ (hfil.trans hp) hgi,
              validate_one_of_cons_single_keyError _ _ _ _ _ _ hp hgi]
        | some next =>
          rw [validate_one_of_cons_single _ _ _ _ _ _ _ _ (hfil.trans hp) hgi hv1,
              validate_one_of_cons_single _ _ _ _ _ _ _ _ hp hgi hv,
              ih hrest]
      | cons k2 more2 =>
        rw [validate_one_of_cons_ambiguous _ _ _ _ _ _ _ _ (hfil.trans hp),
            validate_one_of_cons_ambiguous _ _ _ _ _ _ _ _ hp]

theorem validate_atleast_congr (w : Wrapper) (groups : List (List String))
    (m1 m2 : List (String × JValue)) (path : String)
    (h : ∀ g ∈ groups, ∀ j ∈ g, lookupVal m1 j = lookupVal m2 j) :
    validate_atleast w groups m1 path = validate_atleast w groups m2 path := by
  induction groups with
  | nil => rw [validate_atleast_nil, validate_atleast_nil]
  | cons g rest ih =>
    have hgk : ∀ j ∈ g, lookupVal m1 j = lookupVal m2 j := h g (List.mem_cons_self _ _)
    have hrest : ∀ g2 ∈ rest, ∀ j ∈ g2, lookupVal m1 j = lookupVal m2 j :=
      fun g2 hg2 => h g2 (List.mem_cons_of_mem _ hg2)
    have hfil : g.filter (fun k => (lookupVal m1 k).isSome) =
        g.filter (fun k => (lookupVal m2 k).isSome) := by
      apply List.filter_congr
      intro a ha
      rw [hgk a ha]
    cases hp : g.filter (fun k => (lookupVal m2 k).isSome) with
    | nil =>
      rw [validate_atleast_cons_missing _ _ _ _ _ (hfil.trans hp),
          validate_atleast_cons_missing _ _ _ _ _ hp]
    | cons key more =>
      have hmem : key ∈ g.filter (fun k => (lookupVal m2 k).isSome) := by
        rw [hp]
        exact List.mem_cons_self _ _
      rw [List.mem_filter] at hmem
      obtain ⟨v, hv⟩ := Option.isSome_iff_exists.mp (by simpa using hmem.2)
      have hv1 : lookupVal m1 key = some v := (hgk key hmem.1).trans hv
      cases hgi : w.getitem key with
      | none =>
        rw [validate_atleast_cons_first_keyError _ _ _ _ _ _ _ (hfil.trans hp) hgi,
            validate_atleast_cons_first_keyError _ _ _ _ _ _ _ hp hgi]
      | some next =>
        rw [validate_atleast_cons_first _ _ _ _ _ _ _ _ _ (hfil.trans hp) hgi hv1,
            validate_atleast_cons_first _ _ _ _ _ _ _ _ _ hp hgi hv,
            ih hrest]

theorem mem_dedupKeys {j : String} : ∀ {l : List String}, j ∈ dedupKeys l ↔ j ∈ l := by
  intro l
  induction l with
  | nil => simp [dedupKeys]
  | cons k ks ih =>
    simp only [dedupKeys, List.mem_cons, List.mem_filter, ih]
    constructor
    · rintro (h | ⟨h, _⟩)
      · exact Or.inl h
      · exact Or.inr h
    · rintro (h | h)
      · exact Or.inl h
      · by_cases he : j = k
        · exact Or.inl he
        · exact Or.inr ⟨h, by simpa using he⟩

theorem keys_subset_mentioned_rec : ∀ n : Nat,
    (∀ w : Wrapper, szW w < n →
      (∀ j ∈ w.required_keys, j ∈ w.mentionedKeys) ∧
      (∀ g ∈ w.one_of_keys, ∀ j ∈ g, j ∈ w.mentionedKeys) ∧
      (∀ g ∈ w.atleast_one_keys, ∀ j ∈ g, j ∈ w.mentionedKeys)) ∧
    (∀ ads : List Wrapper, szA ads < n →
      (∀ j ∈ requiredKeysOfAddends ads, j ∈ mentionedKeysAddends ads) ∧
      (∀ g ∈ oneOfKeysOfAddends ads, ∀ j ∈ g, j ∈ mentionedKeysAddends ads) ∧
      (∀ g ∈ atLeastOneKeysOfAddends ads, ∀ j ∈ g, j ∈ mentionedKeysAddends ads)) := by
  intro n
  induction n with
  | zero =>
    constructor
    · intro w hw
      exact absurd hw (Nat.not_lt_zero _)
    · intro ads hads
      exact absurd hads (Nat.not_lt_zero _)
  | succ n ih =>
    constructor
    · intro w hsz
      obtain ⟨p, fs, ads⟩ := w
      have hA : szA ads < n := by
        simp only [szW] at hsz
        omega
      have iha := ih.2 ads hA
      refine ⟨?_, ?_, ?_⟩
      · intro j hj
        simp only [Wrapper.mentionedKeys, List.mem_append]
        cases p with
        | one_of =>
          simp only [Wrapper.required_keys, List.nil_append] at hj
          rw [mem_dedupKeys] at hj
          exact Or.inr (iha.1 j hj)
        | atleast_one =>
          simp only [Wrapper.required_keys, List.nil_append] at hj
          rw [mem_dedupKeys] at hj
          exact Or.inr (iha.1 j hj)
        | base =>
          simp only [Wrapper.required_keys] at hj
          rw [mem_dedupKeys, List.mem_append] at hj
          rcases hj with hj | hj
          · exact Or.inl hj
          · exact Or.inr (iha.1 j hj)
        | required =>
          simp only [Wrapper.required_keys] at hj
          rw [mem_dedupKeys, List.mem_append] at hj
          rcases hj with hj | hj
          · exact Or.inl hj
          · exact Or.inr (iha.1 j hj)
      · intro g hg j hj
        rw [Wrapper.one_of_keys] at hg
        rw [List.mem_append] at hg
        simp only [Wrapper.mentionedKeys, List.mem_append]
        rcases hg with hg | hg
        · left
          by_cases hp : p = .one_of
          · rw [if_pos hp] at hg
            simp only [List.mem_singleton] at hg
            subst hg
            exact hj
          · rw [if_neg hp] at hg
            cases hg
        · exact Or.inr (iha.2.1 g hg j hj)
      · intro g hg j hj
        rw [Wrapper.atleast_one_keys] at hg
        rw [List.mem_append] at hg
        simp only [Wrapper.mentionedKeys, List.mem_append]
        rcases hg with hg | hg
        · left
          by_cases hp : p = .atleast_one
          · rw [if_pos hp] at hg
            simp only [List.mem_singleton] at hg
            subst hg
            exact hj
          · rw [if_neg hp] at hg
            cases hg
        · exact Or.inr (iha.2.2 g hg j hj)
    · intro ads hsz
      cases ads with
      | nil =>
        refine ⟨?_, ?_, ?_⟩
        · intro j hj
          simp [requiredKeysOfAddends] at hj
        · intro g hg
          simp [oneOfKeysOfAddends] at hg
        · intro g hg
          simp [atLeastOneKeysOfAddends] at hg
      | cons a rest =>
        have hWa : szW a < n := by
          simp only [szA] at hsz
          omega
        have hArest : szA rest < n := by
          simp only [szA] at hsz
          omega
        have iha := ih.1 a hWa
        have ihr := ih.2 rest hArest
        refine ⟨?_, ?_, ?_⟩
        · intro j hj
          rw [requiredKeysOfAddends, List.mem_append] at hj
          simp only [mentionedKeysAddends, List.mem_append]
          rcases hj with hj | hj
          · exact Or.inl (iha.1 j hj)
          · exact Or.inr (ihr.1 j hj)
        · intro g hg j hj
          rw [oneOfKeysOfAddends, List.mem_append] at hg
          simp only [mentionedKeysAddends, List.mem_append]
          rcases hg with hg | hg
          · exact Or.inl (iha.2.1 g hg j hj)
          · exact Or.inr (ihr.2.1 g hg j hj)
        · intro g hg j hj
          rw [atLeastOneKeysOfAddends, List.mem_append] at hg
          simp only [mentionedKeysAddends, List.mem_append]
          rcases hg with hg | hg
          · exact Or.inl (iha.2.2 g hg j hj)
          · exact Or.inr (ihr.2.2 g hg j hj)

/-- Every required key of a wrapper is mentioned by the wrapper or one of its
addends. -/
theorem required_keys_subset_mentioned (w : Wrapper) :
    ∀ j ∈ w.required_keys, j ∈ w.mentionedKeys :=
  ((keys_subset_mentioned_rec (szW w + 1)).1 w (Nat.lt_succ_self _)).1

/-- Every key of every one-of group of a wrapper is mentioned by the wrapper
or one of its addends. -/
theorem one_of_keys_subset_mentioned (w : Wrapper) :
    ∀ g ∈ w.one_of_keys, ∀ j ∈ g, j ∈ w.mentionedKeys :=
  ((keys_subset_mentioned_rec (szW w + 1)).1 w (Nat.lt_succ_self _)).2.1

/-- Every key of every at-least-one group of a wrapper is mentioned by the
wrapper or one of its addends. -/
theorem atleast_one_keys_subset_mentioned (w : Wrapper) :
    ∀ g ∈ w.atleast_one_keys, ∀ j ∈ g, j ∈ w.mentionedKeys :=
  ((keys_subset_mentioned_rec (szW w + 1)).1 w (Nat.lt_succ_self _)).2.2

theorem lookupVal_append_notin (m : List (String × JValue)) (k j : String) (x : JValue)
    (hne : j ≠ k) : lookupVal (m ++ [(k, x)]) j = lookupVal m j := by
  induction m with
  | nil =>
    simp only [List.nil_append, lookupVal]
    rw [if_neg (fun hh => hne hh.symm)]
  | cons kv rest ih =>
    obtain ⟨k0, v0⟩ := kv
    simp only [List.cons_append, lookupVal]
    by_cases h0 : k0 = j
    · rw [if_pos h0, if_pos h0]
    · rw [if_neg h0, if_neg h0]
      exact ih

/-- C10: keys of the client mapping that appear neither among a wrapper
schema's own fields nor among any addend's fields are ignored entirely —
appending such a key to the client mapping leaves the validation result
(success or the exact error) unchanged; likewise for bare field-map
literals. -/
theorem C10_extra_keys_ignored (w : Wrapper) (fs : List (String × JSchema))
    (m : List (String × JValue)) (k : String) (x : JValue) (path : String) :
    (k ∉ w.mentionedKeys →
      do_validate (.wrap w) (.dict (m ++ [(k, x)])) path =
        do_validate (.wrap w) (.dict m) path) ∧
    (k ∉ fieldKeys fs →
      do_validate (.jdict fs) (.dict (m ++ [(k, x)])) path =
        do_validate (.jdict fs) (.dict m) path) := by
  have main : ∀ w2 : Wrapper, k ∉ w2.mentionedKeys →
      do_validate (.wrap w2) (.dict (m ++ [(k, x)])) path =
        do_validate (.wrap w2) (.dict m) path := by
    intro w2 hk
    rw [do_validate_wrap, do_validate_wrap, validate_wrapper_dict, validate_wrapper_dict]
    have hlook : ∀ j, j ∈ w2.mentionedKeys → lookupVal (m ++ [(k, x)]) j = lookupVal m j := by
      intro j hj
      exact lookupVal_append_notin m k j x (fun he => hk (he ▸ hj))
    rw [validate_required_congr w2 _ _ m path
          (fun j hj => hlook j (required_keys_subset_mentioned w2 j hj)),
        validate_one_of_congr w2 _ _ m path
          (fun g hg j hj => hlook j (one_of_keys_subset_mentioned w2 g hg j hj)),
        validate_atleast_congr w2 _ _ m path
          (fun g hg j hj => hlook j (atleast_one_keys_subset_mentioned w2 g hg j hj))]
  constructor
  · exact main w
  · intro hk
    rw [do_validate_jdict, do_validate_jdict, ← do_validate_wrap, ← do_validate_wrap]
    apply main
    simpa [Wrapper.mentionedKeys, mentionedKeysAddends] using hk

/-- Witness for C10: adding the unmentioned key `zzz` to an accepted mapping
for `required({a: int})` leaves the result unchanged. -/
theorem C10_extra_keys_ignored_witness :
    ("zzz" ∉ (Wrapper.mk .required [("a", JSchema.prim .int)] []).mentionedKeys) ∧
    do_validate (.wrap (.mk .required [("a", .prim .int)] []))
        (.dict ([("a", .int 1)] ++ [("zzz", .str "ignored")])) "client_json" =
      do_validate (.wrap (.mk .required [("a", .prim .int)] []))
        (.dict [("a", .int 1)]) "client_json" := by
  have hk : "zzz" ∉ (Wrapper.mk .required [("a", JSchema.prim .int)] []).mentionedKeys := by
    simp [Wrapper.mentionedKeys, mentionedKeysAddends, fieldKeys]
  exact ⟨hk,
    (C10_extra_keys_ignored (.mk .required [("a", .prim .int)] []) []
      [("a", .int 1)] "zzz" (.str "ignored") "client_json").1 hk⟩

end JsonValidate
